import Mathlib

/-!
Shallow embedding of the pulp-automation request-dispatch engine
(pulp_auto/pulp.py: class Pulp, class Request) and of the task polling
state machine (pulp_auto/task.py: AbstractTask.wait, Task.wait_for_report),
together with theorems settling the frozen claims about the spec.
-/

/-- An HTTP response as far as the client inspects it: status code and body
text (models the response object of the underlying HTTP library). -/
structure Response where
  status_code : Nat
  text : String
  deriving Repr, DecidableEq

/-- A request descriptor (class Request, pulp.py lines 135-160): method, path
and serialized data. Headers and query parameters are carried opaquely inside
the serialized data for the purposes of the claims. -/
structure Request where
  method : String
  path : String
  data : String
  deriving Repr, DecidableEq

/-- The result of calling a Request on (url, auth) (Request.__call__, pulp.py
lines 149-157): a prepared request resolved against a connection base url and
credentials at call time. The URL joining and normalization helpers are
excluded collaborators in the spec, so the resolved request is modelled as
the triple of the descriptor with the base url and auth it was prepared
against. -/
structure PreparedRequest where
  descriptor : Request
  base_url : String
  auth : String
  deriving Repr, DecidableEq

instance : Inhabited PreparedRequest := ⟨⟨⟨"", "", ""⟩, "", ""⟩⟩

/-- request(self.url, self.auth): prepare a descriptor against a base url and
credentials. -/
def Request.resolve (r : Request) (url auth : String) : PreparedRequest :=
  ⟨r, url, auth⟩

/-- Pulp.check_function (pulp.py line 30): status_code >= 200 and
status_code < 400. -/
def check_function (x : Response) : Bool :=
  decide (200 ≤ x.status_code) && decide (x.status_code < 400)

/-- Value of Pulp.last_request: None initially, one prepared request after a
synchronous send, or a tuple of prepared requests while collecting in async
mode. -/
inductive ReqVal where
  | none
  | one (r : PreparedRequest)
  | tup (rs : List PreparedRequest)
  deriving Repr, DecidableEq

/-- Value of Pulp.last_response: None initially, one response after a
synchronous send, or a tuple after a batch close; a tuple element is an
Option Response because a greenlet that did not finish before the joinall
timeout has value None. -/
inductive RespVal where
  | none
  | one (r : Response)
  | tup (rs : List (Option Response))
  deriving Repr, DecidableEq

/-- Exceptions surfaced by the connection layer. -/
inductive PulpExc where
  /-- raise RuntimeError(Already in async ctx), pulp.py line 103 -/
  | runtimeError
  /-- assert self.is_ok, carrying last_request and last_response via the
  formatted assertion message (pulp.py lines 69-70) -/
  | assertionError (last_request : ReqVal) (last_response : RespVal)
  /-- check_function applied to a None tuple element inside is_ok -/
  | attributeError
  /-- the assert message at pulp.py line 119 evaluates the undefined name
  preprequest -/
  | nameError
  /-- tuple concatenation onto a non-tuple last_request -/
  | typeError
  /-- an arbitrary exception raised by the body of a with-block -/
  | bodyError
  deriving Repr, DecidableEq

/-- Connection state (class Pulp, pulp.py lines 32-50): base url, credentials,
TLS-verification flag, last request and response, the strict-validation flag
self._asserting, the acceptance predicate self.check_function (a class
attribute that an instance may shadow), the async-mode flag self._async, and
a log of the prepared requests actually dispatched on the underlying network
session, in dispatch order (the observable side effects of
self.session.send, which the semaphore serializes). -/
structure Pulp where
  url : String
  auth : String
  verify : Bool
  last_response : RespVal
  last_request : ReqVal
  assertingFlag : Bool
  asyncFlag : Bool
  check_function : Response → Bool
  netLog : List PreparedRequest

/-- reduce(lambda x, y: x and self.check_function(y), rs, True) over a tuple of
job values (pulp.py line 79). The Python and-operator short-circuits, so
elements after a failed check are not evaluated; evaluating the predicate on a
None element is an AttributeError, modelled as Option.none. -/
def foldCheck (check : Response → Bool) : Bool → List (Option Response) → Option Bool
  | acc, [] => some acc
  | true, Option.some r :: ys => foldCheck check (check r) ys
  | true, Option.none :: _ => Option.none
  | false, _ :: ys => foldCheck check false ys

/-- Pulp.is_ok (pulp.py lines 74-80). -/
def Pulp.is_ok (p : Pulp) : Option Bool :=
  match p.last_response with
  | .none => some true
  | .one r => some (p.check_function r)
  | .tup rs => foldCheck p.check_function true rs

/-- Pulp.send (pulp.py lines 57-72), parametrized by the network behaviour
net : PreparedRequest → Response, the response the session gives a dispatched
request (self.session.send under the semaphore). Returns the updated
connection and either a raised exception or the returned value: None in async
mode, the response in synchronous mode. In async mode the descriptor is
resolved immediately against the connection url and auth and appended to the
pending tuple without touching the session; in synchronous mode the request
is dispatched under the semaphore, stored together with its response, and
checked against the acceptance predicate when the asserting flag is set. -/
def Pulp.send (p : Pulp) (net : PreparedRequest → Response) (request : Request) :
    Pulp × Except PulpExc (Option Response) :=
  if p.asyncFlag then
    match p.last_request with
    | .tup rs =>
        ({ p with last_request := .tup (rs ++ [request.resolve p.url p.auth]) },
          .ok Option.none)
    | _ => (p, .error .typeError)
  else
    let req := request.resolve p.url p.auth
    let resp := net req
    let p1 := { p with last_request := .one req, last_response := .one resp,
                       netLog := p.netLog ++ [req] }
    if p1.assertingFlag then
      match p1.is_ok with
      | some true => (p1, .ok (some resp))
      | some false => (p1, .error (.assertionError p1.last_request p1.last_response))
      | Option.none => (p1, .error .attributeError)
    else (p1, .ok (some resp))

/-- Entry part of the Pulp.asserting context manager (pulp.py lines 85-89):
set self._asserting to value and, when a replacement predicate is given,
shadow self.check_function with it. -/
def Pulp.assertingEnter (p : Pulp) (value : Bool) (cf : Option (Response → Bool)) : Pulp :=
  match cf with
  | some f => { p with assertingFlag := value, check_function := f }
  | Option.none => { p with assertingFlag := value }

/-- Pulp.asserting (pulp.py lines 82-95): saves _asserting and check_function,
overrides them, runs the body, and restores both saved values in a finally
block whether or not the body raised; the body returns its final connection
state plus an optional exception it raised. -/
def Pulp.assertingCtx (p : Pulp) (value : Bool) (cf : Option (Response → Bool))
    (body : Pulp → Pulp × Option PulpExc) : Pulp × Option PulpExc :=
  let old_value := p.assertingFlag
  let old_check_function := p.check_function
  let r := body (p.assertingEnter value cf)
  ({ r.1 with assertingFlag := old_value, check_function := old_check_function }, r.2)

/-- Entry of Pulp.async (pulp.py lines 100-105): under the semaphore, raise
RuntimeError when already in async mode, otherwise set last_request to the
empty tuple and enter async mode. The raise happens before either assignment,
so on the error path the connection state is returned untouched. -/
def Pulp.asyncEnter (p : Pulp) : Pulp × Option PulpExc :=
  if p.asyncFlag then (p, some .runtimeError)
  else ({ p with last_request := .tup [], asyncFlag := true }, Option.none)

/-- The response the spawned sender greenlet of job index i obtains: the
prepared request at position i of the pending tuple is sent on the session
under the semaphore. -/
def jobResponse (pending : List PreparedRequest) (net : PreparedRequest → Response)
    (i : Nat) : Response :=
  net (pending.getD i default)

/-- The network-session log of one batch dispatch: the sender greenlets
acquire the semaphore one at a time, so the session processes the pending
requests in the order the scheduler happens to complete them; completed is
that list of job indices, in completion order. -/
def batchLog (pending : List PreparedRequest) (net : PreparedRequest → Response)
    (completed : List Nat) : List (Nat × Response) :=
  completed.map (fun i => (i, jobResponse pending net i))

/-- The value attribute of greenlet i after gevent.joinall: its response when
it completed before the timeout, None otherwise. -/
def jobValue (log : List (Nat × Response)) (i : Nat) : Option Response :=
  (log.find? (fun q => q.1 == i)).map (fun q => q.2)

/-- Normal-exit part of Pulp.async (pulp.py lines 113-121): spawn one sender
greenlet per pending request in submission order, joinall them, store the
tuple of greenlet values in job order as last_response, check is_ok when the
asserting flag is set, and clear the async flag in the finally block.
gevent.joinall with a timeout returns the greenlets that finished before the
timeout expired and does not raise on expiry; its raise_error flag re-raises
only exceptions raised inside greenlets, and the sender greenlets, which only
call session.send, modelled as total, raise none. completed lists the indices
of the jobs that finished before the timeout, in completion order; when no
timeout is given it is a permutation of all the indices. -/
def Pulp.asyncExitNormal (p : Pulp) (net : PreparedRequest → Response)
    (completed : List Nat) : Pulp × Option PulpExc :=
  match p.last_request with
  | .tup pending =>
    let log := batchLog pending net completed
    let values := (List.range pending.length).map (jobValue log)
    let p1 := { p with last_response := .tup values,
                       netLog := p.netLog ++ completed.map (fun i => pending.getD i default) }
    if p1.assertingFlag then
      match p1.is_ok with
      | some true => ({ p1 with asyncFlag := false }, Option.none)
      | some false => ({ p1 with asyncFlag := false }, some .nameError)
      | Option.none => ({ p1 with asyncFlag := false }, some .attributeError)
    else ({ p1 with asyncFlag := false }, Option.none)
  | _ => ({ p with asyncFlag := false }, some .typeError)

/-- Pulp.async used as a with-block (pulp.py lines 97-121): enter, run the
body, which may itself raise, and dispatch the pending requests only on the
normal-exit path; the finally block clears the async flag on every path that
reached the try block. -/
def Pulp.asyncRun (p : Pulp) (net : PreparedRequest → Response) (completed : List Nat)
    (body : Pulp → Pulp × Option PulpExc) : Pulp × Option PulpExc :=
  match p.asyncEnter with
  | (p0, some e) => (p0, some e)
  | (p0, Option.none) =>
    match body p0 with
    | (p1, some e) => ({ p1 with asyncFlag := false }, some e)
    | (p1, Option.none) => p1.asyncExitNormal net completed

/-- A batch body that performs one queued send per listed descriptor, in
order, and returns normally. -/
def sendAll (net : PreparedRequest → Response) (reqs : List Request) (p : Pulp) :
    Pulp × Option PulpExc :=
  (reqs.foldl (fun q r => (q.send net r).1) p, Option.none)

/-!
Task polling (pulp_auto/task.py).
-/

/-- The Python exception classes relevant to task polling, with RuntimeError
standing in for any class unrelated to AssertionError. -/
inductive ExcClass where
  | assertionError
  | taskError
  | taskFailure
  | taskTimeoutError
  | runtimeError
  deriving Repr, DecidableEq

/-- The declared superclass of each class, as written in the source:
class TaskError(AssertionError) at task.py line 6, class TaskFailure(TaskError)
at line 17, class TaskTimeoutError(TaskError) at line 20. The bases of
AssertionError and RuntimeError lie outside the model. -/
def superclass : ExcClass → Option ExcClass
  | .assertionError => Option.none
  | .taskError => some .assertionError
  | .taskFailure => some .taskError
  | .taskTimeoutError => some .taskError
  | .runtimeError => Option.none

/-- Walk at most fuel steps up the superclass chain. -/
def isSubclassAux : Nat → ExcClass → ExcClass → Bool
  | 0, _, _ => false
  | fuel + 1, c, d =>
    c = d || (match superclass c with
              | some q => isSubclassAux fuel q d
              | Option.none => false)

/-- c is d or a (transitive) subclass of d; five steps of fuel cover the whole
declared hierarchy. An except-AssertionError clause catches exactly the
classes c with isSubclass c assertionError. -/
def isSubclass (c d : ExcClass) : Bool := isSubclassAux 5 c d

/-- The slice of the task data relevant to waiting: the state tag
(self.data, key state) and the error payload (self.data, key error). -/
structure TaskData where
  state : String
  error : Option String
  deriving Repr, DecidableEq

/-- The outcome of one reload call inside the poll loop. Modelled from the
spec: Item.reload (in the excluded item module, not under src/) re-fetches
the representation by id and overwrites the local data on success; when it
fails it raises before overwriting anything, so the local data keeps the
value from the last successful reload. -/
inductive ReloadOutcome where
  | ok (d : TaskData)
  | raise (e : ExcClass)
  deriving Repr, DecidableEq

/-- How AbstractTask.wait ends: returning normally, raising
TaskFailure(task, error payload), raising TaskTimeoutError(task), or letting
an exception that is not an AssertionError propagate out of reload. -/
inductive WaitResult where
  | ok (d : TaskData)
  | taskFailure (d : TaskData) (err : Option String)
  | taskTimeout (d : TaskData)
  | uncaught (e : ExcClass) (d : TaskData)
  deriving Repr, DecidableEq

/-- The code after the poll loop when the loop ended by break (task.py lines
51-52): raise TaskFailure when the current state is an error state, otherwise
return normally. -/
def waitFinish (error_states : List String) (d : TaskData) : WaitResult :=
  if d.state ∈ error_states then .taskFailure d d.error else .ok d

/-- The poll loop of AbstractTask.wait (task.py lines 40-50), with the clock
abstracted into a poll budget: fuel is the number of loop iterations the
deadline still admits, i the index of the next poll, d the current local task
data. Each iteration sleeps, reloads (outcome reloads i), breaks out of the
loop when reload raised an AssertionError or when the reloaded state is an
end state, and otherwise continues; when the budget is exhausted the
while-else clause raises TaskTimeoutError carrying the task, skipping the
error-state check. -/
def waitLoop (end_states error_states : List String) (reloads : Nat → ReloadOutcome) :
    Nat → Nat → TaskData → WaitResult
  | 0, _, d => .taskTimeout d
  | fuel + 1, i, d =>
    match reloads i with
    | .raise e =>
      if isSubclass e .assertionError then waitFinish error_states d
      else .uncaught e d
    | .ok d1 =>
      if d1.state ∈ end_states then waitFinish error_states d1
      else waitLoop end_states error_states reloads fuel (i + 1) d1

/-- The number of poll iterations the loop performs before the while condition
fails: the check before iteration i compares the clock, advanced only by the
i sleeps performed so far, against the deadline delta = entry time plus
timeout, computed once at entry (task.py lines 39-40); so iteration i runs
exactly when i * frequency is at most timeout. -/
def numPolls (timeout frequency : ℚ) : Nat :=
  (Int.floor (timeout / frequency)).toNat + 1

/-- AbstractTask.wait (task.py lines 33-52): compute the deadline once, poll
until an end state, an AssertionError from reload, or the deadline, then
either raise TaskTimeoutError carrying the task, or decide between TaskFailure
and a normal return from the final state. -/
def AbstractTask.wait (end_states error_states : List String)
    (reloads : Nat → ReloadOutcome) (timeout frequency : ℚ) (d0 : TaskData) : WaitResult :=
  waitLoop end_states error_states reloads (numPolls timeout frequency) 0 d0

/-- TaskDetails.active_states (task.py line 68). -/
def TaskDetails.active_states : List String := ["running", "waiting"]

/-- TaskDetails.end_states (task.py line 69). -/
def TaskDetails.end_states : List String := ["finished", "error", "canceled", "cancelled"]

/-- TaskDetails.error_states (task.py line 70). -/
def TaskDetails.error_states : List String := ["error"]

/-- A node of the job tree that the server serves during
Task.wait_for_report (task.py lines 100-112): the task id, the outcome of
waiting on the fetched task (Option.none when wait returns normally, some e
when it raises e), and the spawned_tasks key of its representation:
Option.none when the key is absent, some children when present. Modelled from
the spec where the repository code is outside src/: the envelope parsing
(from_report and from_response, in the excluded data-wrapper component)
yields the listed spawned references in order, each re-fetchable by href, and
fetching a reference is modelled as returning its node again (a static
server), so the fetch before the wait and the re-fetch after it see the same
representation. -/
inductive JobNode where
  | mk (id : String) (waitExc : Option ExcClass) (spawned : Option (List JobNode))

/-- The id of a node. -/
def JobNode.id : JobNode → String
  | .mk i _ _ => i

/-- The result of a tree-wait: the ids wait was called on, in call order, and,
when some wait raised, the id it raised at and the exception class. -/
inductive TreeResult where
  | ok (waited : List String)
  | failed (waited : List String) (atId : String) (e : ExcClass)
  deriving Repr, DecidableEq

/-- Run a second tree-wait after a first one, as the for loop does: an
exception from the first part aborts, otherwise the waited lists concatenate. -/
def TreeResult.seq : TreeResult → TreeResult → TreeResult
  | .ok w, .ok w2 => .ok (w ++ w2)
  | .ok w, .failed w2 a e => .failed (w ++ w2) a e
  | .failed w a e, _ => .failed w a e

mutual

/-- The body of Task.wait_for_report for one spawned reference (task.py lines
107-112): fetch the task, wait on it via wait_for_response (recording its id;
an exception aborts), re-fetch it, and when the fresh representation carries
the spawned_tasks key, recurse into the report wait of its children. -/
def waitNode : JobNode → TreeResult
  | .mk i exc spawned =>
    match exc with
    | some e => .failed [i] i e
    | Option.none =>
      match spawned with
      | Option.none => .ok [i]
      | some cs =>
        match waitNodes cs with
        | .ok w => .ok (i :: w)
        | .failed w a e => .failed (i :: w) a e

/-- The for loop of Task.wait_for_report over the spawned references, in
listed order; the first exception aborts the loop. -/
def waitNodes : List JobNode → TreeResult
  | [] => .ok []
  | n :: rest =>
    match waitNode n with
    | .ok w =>
      match waitNodes rest with
      | .ok w2 => .ok (w ++ w2)
      | .failed w2 a e => .failed (w ++ w2) a e
    | .failed w a e => .failed w a e

end

/-- Task.wait_for_report (task.py lines 100-112) applied to a call report
whose spawned_tasks entry lists the given references. -/
def wait_for_report (spawned : List JobNode) : TreeResult :=
  waitNodes spawned

mutual

/-- Depth-first, left-to-right preorder of a node: the node itself, then its
children when the spawned_tasks key is present. Each entry carries the id and
the wait outcome of the node. -/
def dfsNode : JobNode → List (String × Option ExcClass)
  | .mk i exc spawned =>
    (i, exc) :: (match spawned with
                 | some cs => dfsNodes cs
                 | Option.none => [])

/-- Depth-first, left-to-right preorder of a forest. -/
def dfsNodes : List JobNode → List (String × Option ExcClass)
  | [] => []
  | n :: rest => dfsNode n ++ dfsNodes rest

end

/-- The declarative description of a tree-wait: walk the depth-first preorder
sequence left to right, wait on each entry, and abort at the first entry
whose wait raises, so that no later entry is waited on. -/
def flatRun : List (String × Option ExcClass) → TreeResult
  | [] => .ok []
  | (i, some e) :: _ => .failed [i] i e
  | (i, Option.none) :: rest =>
    match flatRun rest with
    | .ok w => .ok (i :: w)
    | .failed w a e => .failed (i :: w) a e

/-- A concrete connection fresh out of the constructor (pulp.py lines 32-50):
sync mode, asserting off, nothing sent yet, default acceptance predicate. -/
def pulp0 : Pulp :=
  { url := "https://pulp.example.com"
    auth := "admin"
    verify := false
    last_response := RespVal.none
    last_request := ReqVal.none
    assertingFlag := false
    asyncFlag := false
    check_function := check_function
    netLog := [] }

/-- A concrete network double that answers every request with status 200. -/
def net0 : PreparedRequest → Response := fun _ => ⟨200, "ok"⟩

/-- A concrete request descriptor. -/
def req0 : Request := ⟨"GET", "/tasks/", ""⟩

/-- A second concrete request descriptor. -/
def req1 : Request := ⟨"POST", "/repositories/", "body"⟩

/-- A concrete connection with a batch open and one request already queued. -/
def pulpB : Pulp :=
  { pulp0 with asyncFlag := true,
               last_request := ReqVal.tup [req0.resolve pulp0.url pulp0.auth] }

/-- A batch body that queues one send and then raises. -/
def cxBody (net : PreparedRequest → Response) (r : Request) (q : Pulp) :
    Pulp × Option PulpExc :=
  ((q.send net r).1, some PulpExc.bodyError)

/-! Helper lemmas about batch dispatch. -/

theorem jobValue_batchLog_mem (pending : List PreparedRequest)
    (net : PreparedRequest → Response) (completed : List Nat) (i : Nat)
    (hmem : i ∈ completed) :
    jobValue (batchLog pending net completed) i = some (jobResponse pending net i) := by
  induction completed with
  | nil => cases hmem
  | cons j t ih =>
    rw [batchLog, List.map_cons, jobValue]
    by_cases hj : j = i
    · subst hj
      rw [List.find?_cons_of_pos _ (by simp)]
      rfl
    · have hmem2 : i ∈ t := by
        rcases List.mem_cons.mp hmem with h | h
        · exact absurd h.symm hj
        · exact h
      have hrec := ih hmem2
      rw [jobValue, batchLog] at hrec
      rw [List.find?_cons_of_neg _ (by simp [hj])]
      exact hrec

theorem jobValue_batchLog_not_mem (pending : List PreparedRequest)
    (net : PreparedRequest → Response) (completed : List Nat) (i : Nat)
    (hmem : i ∉ completed) :
    jobValue (batchLog pending net completed) i = Option.none := by
  induction completed with
  | nil => rfl
  | cons j t ih =>
    rw [batchLog, List.map_cons, jobValue]
    have hj : j ≠ i := fun h => hmem (h ▸ List.mem_cons_self j t)
    rw [List.find?_cons_of_neg _ (by simp [hj])]
    have hmem2 : i ∉ t := fun h => hmem (List.mem_cons_of_mem j h)
    have hrec := ih hmem2
    rw [jobValue, batchLog] at hrec
    exact hrec

theorem batch_values_of_perm (pending : List PreparedRequest)
    (net : PreparedRequest → Response) (completed : List Nat)
    (hperm : completed.Perm (List.range pending.length)) :
    (List.range pending.length).map (jobValue (batchLog pending net completed))
      = pending.map (fun r => some (net r)) := by
  apply List.ext_getElem
  · simp
  · intro i h1 h2
    simp only [List.getElem_map, List.getElem_range]
    have hi : i < pending.length := by simpa using h2
    have hmem : i ∈ completed := hperm.mem_iff.mpr (List.mem_range.mpr hi)
    rw [jobValue_batchLog_mem pending net completed i hmem, jobResponse]
    have hgd : pending.getD i default = pending[i] := by
      rw [List.getD_eq_getElem?_getD, List.getElem?_eq_getElem hi]
      rfl
    rw [hgd]

theorem asyncExitNormal_fst (p : Pulp) (net : PreparedRequest → Response)
    (completed : List Nat) (pending : List PreparedRequest)
    (hq : p.last_request = ReqVal.tup pending) :
    (p.asyncExitNormal net completed).1
      = { p with
          last_response := RespVal.tup ((List.range pending.length).map
              (jobValue (batchLog pending net completed))),
          netLog := p.netLog ++ completed.map (fun i => pending.getD i default),
          asyncFlag := false } := by
  rw [Pulp.asyncExitNormal, hq]
  dsimp only
  split
  · split <;> rfl
  · rfl

theorem asyncExitNormal_snd_not_asserting (p : Pulp) (net : PreparedRequest → Response)
    (completed : List Nat) (pending : List PreparedRequest)
    (hq : p.last_request = ReqVal.tup pending)
    (hass : p.assertingFlag = false) :
    (p.asyncExitNormal net completed).2 = Option.none := by
  rw [Pulp.asyncExitNormal, hq]
  dsimp only
  rw [if_neg (by simp [hass])]

/-- C6: opening a second batch on a connection whose batch is already open
fails with the reentrancy RuntimeError and leaves the connection state
untouched: the connection stays in async mode and the pending queue of
already-queued requests is unchanged. -/
theorem c6_reentrancy (p : Pulp) (h : p.asyncFlag = true) :
    p.asyncEnter = (p, some PulpExc.runtimeError)
    ∧ (p.asyncEnter).1.asyncFlag = true
    ∧ (p.asyncEnter).1.last_request = p.last_request := by
  have hmain : p.asyncEnter = (p, some PulpExc.runtimeError) := by
    rw [Pulp.asyncEnter, if_pos h]
  exact ⟨hmain, by rw [hmain]; exact h, by rw [hmain]⟩

theorem c6_reentrancy_witness :
    pulpB.asyncFlag = true
    ∧ pulpB.asyncEnter = (pulpB, some PulpExc.runtimeError)
    ∧ (pulpB.asyncEnter).1.last_request
        = ReqVal.tup [req0.resolve pulp0.url pulp0.auth] :=
  ⟨rfl, (c6_reentrancy pulpB rfl).1, by rw [(c6_reentrancy pulpB rfl).1]; rfl⟩

/-- C7: a send while a batch is open dispatches nothing on the network
session, resolves the descriptor against the connection url and credentials
at the time of the call, appends the resolved request to the pending queue,
and returns None to the caller; the queued entry is a resolved value, so
mutating the connection url or credentials afterwards leaves it unchanged. -/
theorem c7_send_in_batch (p : Pulp) (net : PreparedRequest → Response) (request : Request)
    (rs : List PreparedRequest)
    (hasync : p.asyncFlag = true) (hq : p.last_request = ReqVal.tup rs) :
    p.send net request
      = ({ p with last_request := ReqVal.tup (rs ++ [request.resolve p.url p.auth]) },
         Except.ok Option.none)
    ∧ (p.send net request).1.netLog = p.netLog
    ∧ (p.send net request).1.last_response = p.last_response
    ∧ ∀ u a : String,
        ({ (p.send net request).1 with url := u, auth := a }).last_request
          = ReqVal.tup (rs ++ [request.resolve p.url p.auth]) := by
  have hmain : p.send net request
      = ({ p with last_request := ReqVal.tup (rs ++ [request.resolve p.url p.auth]) },
         Except.ok Option.none) := by
    rw [Pulp.send, if_pos hasync, hq]
  exact ⟨hmain, by rw [hmain], by rw [hmain], fun u a => by rw [hmain]⟩

theorem c7_send_in_batch_witness :
    pulpB.asyncFlag = true
    ∧ (pulpB.send net0 req1).1.netLog = pulpB.netLog
    ∧ (pulpB.send net0 req1).2 = Except.ok Option.none :=
  ⟨rfl,
    (c7_send_in_batch pulpB net0 req1 [req0.resolve pulp0.url pulp0.auth] rfl rfl).2.1,
    by rw [(c7_send_in_batch pulpB net0 req1 [req0.resolve pulp0.url pulp0.auth] rfl rfl).1]⟩

/-- C9: the Pulp.asserting scope restores the strict-validation flag and the
acceptance predicate to exactly their entry values on exit, whether the body
returned normally or raised, and neither entering nor exiting the scope
changes any other connection attribute. -/
theorem c9_asserting_scope (p : Pulp) (value : Bool) (cf : Option (Response → Bool))
    (body : Pulp → Pulp × Option PulpExc) :
    (p.assertingCtx value cf body).1.assertingFlag = p.assertingFlag
    ∧ (p.assertingCtx value cf body).1.check_function = p.check_function
    ∧ (p.assertingCtx value cf body).1.url = (body (p.assertingEnter value cf)).1.url
    ∧ (p.assertingCtx value cf body).1.auth = (body (p.assertingEnter value cf)).1.auth
    ∧ (p.assertingCtx value cf body).1.verify = (body (p.assertingEnter value cf)).1.verify
    ∧ (p.assertingCtx value cf body).1.last_request
        = (body (p.assertingEnter value cf)).1.last_request
    ∧ (p.assertingCtx value cf body).1.last_response
        = (body (p.assertingEnter value cf)).1.last_response
    ∧ (p.assertingCtx value cf body).1.asyncFlag
        = (body (p.assertingEnter value cf)).1.asyncFlag
    ∧ (p.assertingCtx value cf body).1.netLog = (body (p.assertingEnter value cf)).1.netLog
    ∧ (p.assertingCtx value cf body).2 = (body (p.assertingEnter value cf)).2
    ∧ (p.assertingEnter value cf).assertingFlag = value
    ∧ (p.assertingEnter value cf).url = p.url
    ∧ (p.assertingEnter value cf).auth = p.auth
    ∧ (p.assertingEnter value cf).verify = p.verify
    ∧ (p.assertingEnter value cf).last_request = p.last_request
    ∧ (p.assertingEnter value cf).last_response = p.last_response
    ∧ (p.assertingEnter value cf).asyncFlag = p.asyncFlag
    ∧ (p.assertingEnter value cf).netLog = p.netLog := by
  cases cf <;>
    exact ⟨rfl, rfl, rfl, rfl, rfl, rfl, rfl, rfl, rfl, rfl, rfl, rfl, rfl, rfl, rfl, rfl,
           rfl, rfl⟩

theorem send_sync_eq (p : Pulp) (net : PreparedRequest → Response) (request : Request)
    (hsync : p.asyncFlag = false) :
    p.send net request
      = (let req := request.resolve p.url p.auth
         let resp := net req
         let p1 := { p with last_request := ReqVal.one req, last_response := RespVal.one resp,
                            netLog := p.netLog ++ [req] }
         if p1.assertingFlag then
           match p1.is_ok with
           | some true => (p1, Except.ok (some resp))
           | some false => (p1, Except.error (PulpExc.assertionError p1.last_request p1.last_response))
           | Option.none => (p1, Except.error PulpExc.attributeError)
         else (p1, Except.ok (some resp))) := by
  rw [Pulp.send, if_neg (by simp [hsync])]

/-- C8: a synchronous send with strict validation on and the default
acceptance predicate: a response with status 404 raises the validation
AssertionError, carrying both the last request and the last response, and a
response with status 200 never raises, returning the response record. -/
theorem c8_strict_validation (p : Pulp) (net : PreparedRequest → Response) (request : Request)
    (hsync : p.asyncFlag = false) (hass : p.assertingFlag = true)
    (hck : p.check_function = check_function) :
    ((net (request.resolve p.url p.auth)).status_code = 404 →
      (p.send net request).2
        = Except.error (PulpExc.assertionError
            (ReqVal.one (request.resolve p.url p.auth))
            (RespVal.one (net (request.resolve p.url p.auth)))))
    ∧ ((net (request.resolve p.url p.auth)).status_code = 200 →
      (p.send net request).2 = Except.ok (some (net (request.resolve p.url p.auth))))
    ∧ (p.send net request).1.last_request = ReqVal.one (request.resolve p.url p.auth)
    ∧ (p.send net request).1.last_response
        = RespVal.one (net (request.resolve p.url p.auth)) := by
  rw [send_sync_eq p net request hsync]
  dsimp only [Pulp.is_ok]
  rw [hass, if_pos rfl, hck]
  refine ⟨?_, ?_, ?_, ?_⟩
  · intro h404
    have hc : check_function (net (request.resolve p.url p.auth)) = false := by
      rw [check_function, h404]
      rfl
    rw [hc]
  · intro h200
    have hc : check_function (net (request.resolve p.url p.auth)) = true := by
      rw [check_function, h200]
      rfl
    rw [hc]
  · split <;> rfl
  · split <;> rfl

theorem c8_strict_validation_witness :
    (0 : Nat) < 1
    ∧ (let pa : Pulp := { pulp0 with assertingFlag := true }
       let net404 : PreparedRequest → Response := fun _ => ⟨404, "not found"⟩
       (pa.send net404 req0).2
         = Except.error (PulpExc.assertionError
             (ReqVal.one (req0.resolve pa.url pa.auth))
             (RespVal.one (net404 (req0.resolve pa.url pa.auth))))) :=
  ⟨Nat.zero_lt_one,
    (c8_strict_validation { pulp0 with assertingFlag := true }
        (fun _ => ⟨404, "not found"⟩) req0 rfl rfl rfl).1 rfl⟩

theorem sendAll_fold (net : PreparedRequest → Response) (reqs : List Request) :
    ∀ (p : Pulp) (rs : List PreparedRequest),
      p.asyncFlag = true → p.last_request = ReqVal.tup rs →
      List.foldl (fun q r => (q.send net r).1) p reqs
        = { p with last_request := ReqVal.tup (rs ++ reqs.map (fun r => r.resolve p.url p.auth)) } := by
  induction reqs with
  | nil =>
    intro p rs h hq
    rw [List.foldl_nil, List.map_nil, List.append_nil, ← hq]
  | cons a t ih =>
    intro p rs h hq
    rw [List.foldl_cons]
    have hsend : (p.send net a).1
        = { p with last_request := ReqVal.tup (rs ++ [a.resolve p.url p.auth]) } := by
      rw [Pulp.send, if_pos h, hq]
    rw [hsend,
        ih { p with last_request := ReqVal.tup (rs ++ [a.resolve p.url p.auth]) }
          (rs ++ [a.resolve p.url p.auth]) h rfl]
    simp

/-- C1: for every batch of N request descriptors queued via send inside an
open batch context, the value stored as the last response when the batch
closes is the ordered tuple of exactly N response records whose i-th element
is the response to the i-th queued request, in submission order, for every
permutation of the order in which the dispatched greenlets complete. -/
theorem c1_batch_submission_order (p : Pulp) (net : PreparedRequest → Response)
    (reqs : List Request) (completed : List Nat)
    (hasync : p.asyncFlag = false)
    (hperm : completed.Perm (List.range reqs.length)) :
    ((p.asyncRun net completed (sendAll net reqs)).1).last_response
      = RespVal.tup (reqs.map (fun r => some (net (r.resolve p.url p.auth)))) := by
  rw [Pulp.asyncRun]
  have he : p.asyncEnter
      = ({ p with last_request := ReqVal.tup [], asyncFlag := true }, Option.none) := by
    rw [Pulp.asyncEnter, if_neg (by simp [hasync])]
  rw [he]
  dsimp only
  have hb : sendAll net reqs { p with last_request := ReqVal.tup [], asyncFlag := true }
      = ({ p with asyncFlag := true,
                  last_request := ReqVal.tup (reqs.map (fun r => r.resolve p.url p.auth)) },
         Option.none) := by
    rw [sendAll, sendAll_fold net reqs _ [] rfl rfl]
    simp
  rw [hb]
  dsimp only
  rw [asyncExitNormal_fst _ net completed (reqs.map (fun r => r.resolve p.url p.auth)) rfl]
  dsimp only
  have hlen : (reqs.map (fun r => r.resolve p.url p.auth)).length = reqs.length :=
    List.length_map reqs _
  rw [batch_values_of_perm _ net completed (by rw [hlen]; exact hperm)]
  rw [List.map_map]
  rfl

theorem c1_batch_submission_order_witness :
    pulp0.asyncFlag = false
    ∧ List.Perm [1, 0] (List.range [req0, req1].length)
    ∧ ((pulp0.asyncRun net0 [1, 0] (sendAll net0 [req0, req1])).1).last_response
        = RespVal.tup [some (net0 (req0.resolve pulp0.url pulp0.auth)),
                       some (net0 (req1.resolve pulp0.url pulp0.auth))] :=
  ⟨rfl, by decide, c1_batch_submission_order pulp0 net0 [req0, req1] [1, 0] rfl (by decide)⟩

/-- C2 amended: clearing the async flag happens on every exit path of the
batch context, and on a normal body exit every queued request is dispatched
and the ordered response tuple stored; but when the body raises, the queued
requests are not dispatched and the last response is left exactly as the body
left it. -/
theorem c2_async_exit (p : Pulp) (net : PreparedRequest → Response)
    (completed : List Nat) (body : Pulp → Pulp × Option PulpExc)
    (hasync : p.asyncFlag = false) :
    (∀ p1 e,
      body { p with last_request := ReqVal.tup [], asyncFlag := true } = (p1, some e) →
      (p.asyncRun net completed body).1 = { p1 with asyncFlag := false }
      ∧ (p.asyncRun net completed body).1.netLog = p1.netLog
      ∧ (p.asyncRun net completed body).1.last_response = p1.last_response
      ∧ (p.asyncRun net completed body).2 = some e)
    ∧ (∀ p1 pending,
        body { p with last_request := ReqVal.tup [], asyncFlag := true } = (p1, Option.none) →
        p1.last_request = ReqVal.tup pending →
        completed.Perm (List.range pending.length) →
        (p.asyncRun net completed body).1.netLog
            = p1.netLog ++ completed.map (fun i => pending.getD i default)
        ∧ (∀ i, i < pending.length →
            pending.getD i default ∈ (p.asyncRun net completed body).1.netLog)
        ∧ (p.asyncRun net completed body).1.last_response
            = RespVal.tup (pending.map (fun r => some (net r)))
        ∧ (p.asyncRun net completed body).1.asyncFlag = false) := by
  have he : p.asyncEnter
      = ({ p with last_request := ReqVal.tup [], asyncFlag := true }, Option.none) := by
    rw [Pulp.asyncEnter, if_neg (by simp [hasync])]
  constructor
  · intro p1 e hb
    rw [Pulp.asyncRun, he]
    dsimp only
    rw [hb]
    exact ⟨rfl, rfl, rfl, rfl⟩
  · intro p1 pending hb hq hperm
    rw [Pulp.asyncRun, he]
    dsimp only
    rw [hb]
    dsimp only
    rw [asyncExitNormal_fst p1 net completed pending hq]
    refine ⟨rfl, ?_, ?_, rfl⟩
    · intro i hi
      dsimp only
      apply List.mem_append_right
      exact List.mem_map.mpr ⟨i, hperm.mem_iff.mpr (List.mem_range.mpr hi), rfl⟩
    · dsimp only
      rw [batch_values_of_perm pending net completed hperm]

theorem c2_async_exit_witness :
    pulp0.asyncFlag = false
    ∧ (pulp0.asyncRun net0 [] (fun q => (q, some PulpExc.bodyError))).2
        = some PulpExc.bodyError :=
  ⟨rfl, ((c2_async_exit pulp0 net0 [] (fun q => (q, some PulpExc.bodyError)) rfl).1 _
      PulpExc.bodyError rfl).2.2.2⟩

/-- C2 counterexample: a batch whose body queues one request and then raises;
at batch close nothing has been dispatched on the session, the stored last
response is untouched, and the pending queue still holds the undispatched
request, refuting dispatch-on-every-exit. -/
theorem c2_async_exit_cx :
    (pulp0.asyncRun net0 [0] (cxBody net0 req0)).1.netLog = []
    ∧ (pulp0.asyncRun net0 [0] (cxBody net0 req0)).1.last_response = RespVal.none
    ∧ (pulp0.asyncRun net0 [0] (cxBody net0 req0)).1.last_request
        = ReqVal.tup [req0.resolve pulp0.url pulp0.auth]
    ∧ (pulp0.asyncRun net0 [0] (cxBody net0 req0)).2 = some PulpExc.bodyError :=
  ⟨rfl, rfl, rfl, rfl⟩

/-- C3 amended: when the joinall timeout elapses before all dispatched
requests complete, the batch close nevertheless returns normally rather than
propagating a timeout failure (stated with strict validation off); the stored
last response is still a tuple with one slot per queued request, in
submission order, and the slot of every request that had not completed holds
None. -/
theorem c3_timeout_returns_normally (p : Pulp) (net : PreparedRequest → Response)
    (completed : List Nat) (pending : List PreparedRequest)
    (hq : p.last_request = ReqVal.tup pending)
    (hass : p.assertingFlag = false) :
    (p.asyncExitNormal net completed).2 = Option.none
    ∧ (p.asyncExitNormal net completed).1.last_response
        = RespVal.tup ((List.range pending.length).map
            (jobValue (batchLog pending net completed)))
    ∧ (∀ i, i ∉ completed → jobValue (batchLog pending net completed) i = Option.none)
    ∧ ((List.range pending.length).map (jobValue (batchLog pending net completed))).length
        = pending.length := by
  refine ⟨asyncExitNormal_snd_not_asserting p net completed pending hq hass, ?_,
          jobValue_batchLog_not_mem pending net completed, by simp⟩
  rw [asyncExitNormal_fst p net completed pending hq]

/-- C3 counterexample: one queued request, none completed within the timeout;
the batch close returns normally with a partial, None-valued result instead
of propagating a timeout failure that aborts the batch. -/
theorem c3_timeout_cx :
    (pulpB.asyncExitNormal net0 []).2 = Option.none
    ∧ (pulpB.asyncExitNormal net0 []).1.last_response = RespVal.tup [Option.none]
    ∧ (pulpB.asyncExitNormal net0 []).1.asyncFlag = false :=
  ⟨rfl, rfl, rfl⟩

theorem c3_timeout_returns_normally_witness :
    pulpB.last_request = ReqVal.tup [req0.resolve pulp0.url pulp0.auth]
    ∧ pulpB.assertingFlag = false
    ∧ (pulpB.asyncExitNormal net0 []).2 = Option.none :=
  ⟨rfl, rfl,
    (c3_timeout_returns_normally pulpB net0 [] [req0.resolve pulp0.url pulp0.auth] rfl rfl).1⟩

/-! Helper lemmas about the poll loop. -/

theorem numPolls_spec (timeout frequency : ℚ) (hf : 0 < frequency) (ht : 0 ≤ timeout)
    (i : Nat) :
    (i : ℚ) * frequency ≤ timeout ↔ i < numPolls timeout frequency := by
  rw [numPolls]
  have h1 : (i : ℚ) * frequency ≤ timeout ↔ (i : ℚ) ≤ timeout / frequency :=
    (le_div_iff₀ hf).symm
  have h2 : (i : ℚ) ≤ timeout / frequency ↔ (i : ℤ) ≤ Int.floor (timeout / frequency) := by
    rw [Int.le_floor, Int.cast_natCast]
  have h0 : 0 ≤ Int.floor (timeout / frequency) :=
    Int.floor_nonneg.mpr (div_nonneg ht hf.le)
  rw [h1, h2]
  omega

theorem waitFinish_ne_timeout (error_states : List String) (d d2 : TaskData) :
    waitFinish error_states d ≠ WaitResult.taskTimeout d2 := by
  rw [waitFinish]
  split <;> intro h <;> cases h

theorem waitLoop_timeout (end_states error_states : List String) (f : Nat → TaskData) :
    ∀ (fuel i : Nat) (d : TaskData),
      (∀ k, k < fuel → (f (i + k)).state ∉ end_states) →
      ∃ dfin, waitLoop end_states error_states (fun n => ReloadOutcome.ok (f n)) fuel i d
          = WaitResult.taskTimeout dfin := by
  intro fuel
  induction fuel with
  | zero => intro i d _; exact ⟨d, rfl⟩
  | succ m ih =>
    intro i d hno
    simp only [waitLoop]
    have h0 : (f i).state ∉ end_states := hno 0 (Nat.succ_pos m)
    rw [if_neg h0]
    exact ih (i + 1) (f i) (fun k hk => by
      have harith : i + 1 + k = i + (k + 1) := by omega
      rw [harith]
      exact hno (k + 1) (by omega))

theorem waitLoop_first_end (end_states error_states : List String) (f : Nat → TaskData) :
    ∀ (j fuel i : Nat) (d : TaskData),
      j < fuel →
      (f (i + j)).state ∈ end_states →
      (∀ k, k < j → (f (i + k)).state ∉ end_states) →
      waitLoop end_states error_states (fun n => ReloadOutcome.ok (f n)) fuel i d
        = waitFinish error_states (f (i + j)) := by
  intro j
  induction j with
  | zero =>
    intro fuel i d hj hend _
    cases fuel with
    | zero => omega
    | succ n =>
      simp only [waitLoop]
      have h0 : (f i).state ∈ end_states := hend
      rw [if_pos h0]
      rfl
  | succ m ihj =>
    intro fuel i d hj hend hbefore
    cases fuel with
    | zero => omega
    | succ n =>
      simp only [waitLoop]
      have h0 : (f i).state ∉ end_states := hbefore 0 (Nat.succ_pos m)
      rw [if_neg h0]
      have harith : i + 1 + m = i + (m + 1) := by omega
      rw [ihj n (i + 1) (f i) (by omega)
            (by rw [harith]; exact hend)
            (fun k hk => by
              have h2 : i + 1 + k = i + (k + 1) := by omega
              rw [h2]
              exact hbefore (k + 1) (by omega)),
          harith]

theorem waitLoop_assertion_break (end_states error_states : List String)
    (reloads : Nat → ReloadOutcome) (f : Nat → TaskData) (e : ExcClass) :
    ∀ (j fuel i : Nat) (d : TaskData),
      j < fuel →
      (∀ k, k < j → reloads (i + k) = ReloadOutcome.ok (f (i + k))
                    ∧ (f (i + k)).state ∉ end_states) →
      reloads (i + j) = ReloadOutcome.raise e →
      isSubclass e ExcClass.assertionError = true →
      waitLoop end_states error_states reloads fuel i d
        = waitFinish error_states (if j = 0 then d else f (i + j - 1)) := by
  intro j
  induction j with
  | zero =>
    intro fuel i d hj _ hraise hsub
    cases fuel with
    | zero => omega
    | succ n =>
      simp only [waitLoop]
      rw [show reloads i = ReloadOutcome.raise e from hraise]
      dsimp only
      rw [if_pos hsub]
      simp
  | succ m ihj =>
    intro fuel i d hj hpre hraise hsub
    cases fuel with
    | zero => omega
    | succ n =>
      simp only [waitLoop]
      rw [show reloads i = ReloadOutcome.ok (f i) from (hpre 0 (Nat.succ_pos m)).1]
      dsimp only
      have h0 : (f i).state ∉ end_states := (hpre 0 (Nat.succ_pos m)).2
      rw [if_neg h0]
      rw [ihj n (i + 1) (f i) (by omega)
            (fun k hk => by
              have h2 : i + 1 + k = i + (k + 1) := by omega
              rw [h2]
              exact hpre (k + 1) (by omega))
            (by
              have h2 : i + 1 + m = i + (m + 1) := by omega
              rw [h2]
              exact hraise)
            hsub]
      by_cases hm : m = 0
      · subst hm
        simp
      · have h1 : i + 1 + m - 1 = i + (m + 1) - 1 := by omega
        rw [if_neg hm, if_neg (by omega : ¬m + 1 = 0), h1]

/-- C4 amended (restricted to runs in which every reload succeeds; the source
also leaves the loop early when reload raises an AssertionError, see the
job-gone path): wait computes the deadline, entry time plus timeout, once at
entry, so a poll happens at each index i with i * frequency at most timeout;
it raises TaskTimeoutError carrying the task exactly when no poll before the
deadline observes an end state; otherwise the loop stops at the first poll
that observes an end state, raising TaskFailure carrying the task and its
error payload when that state is an error state, and returning normally,
with no value, exactly when it is a non-error end state. -/
theorem c4_wait_outcomes (end_states error_states : List String) (f : Nat → TaskData)
    (timeout frequency : ℚ) (d0 : TaskData)
    (hf : 0 < frequency) (ht : 0 ≤ timeout) :
    ((∃ d, AbstractTask.wait end_states error_states (fun n => ReloadOutcome.ok (f n))
          timeout frequency d0 = WaitResult.taskTimeout d)
        ↔ (∀ i : Nat, (i : ℚ) * frequency ≤ timeout → (f i).state ∉ end_states))
    ∧ (∀ j : Nat, (j : ℚ) * frequency ≤ timeout → (f j).state ∈ end_states →
        (∀ k, k < j → (f k).state ∉ end_states) →
        ((f j).state ∈ error_states →
          AbstractTask.wait end_states error_states (fun n => ReloadOutcome.ok (f n))
            timeout frequency d0 = WaitResult.taskFailure (f j) (f j).error)
        ∧ ((f j).state ∉ error_states →
          AbstractTask.wait end_states error_states (fun n => ReloadOutcome.ok (f n))
            timeout frequency d0 = WaitResult.ok (f j))) := by
  classical
  have hconv : ∀ i : Nat, ((i : ℚ) * frequency ≤ timeout ↔ i < numPolls timeout frequency) :=
    fun i => numPolls_spec timeout frequency hf ht i
  constructor
  · constructor
    · rintro ⟨d, hd⟩ i hi
      by_contra hcon
      have hendi : (f i).state ∈ end_states := hcon
      have hex : ∃ k, k < numPolls timeout frequency ∧ (f k).state ∈ end_states :=
        ⟨i, (hconv i).mp hi, hendi⟩
      have hjs := Nat.find_spec hex
      have hfirst := waitLoop_first_end end_states error_states f (Nat.find hex)
          (numPolls timeout frequency) 0 d0 hjs.1
          (by simpa using hjs.2)
          (fun k hk => by
            have hmin := Nat.find_min hex hk
            intro hmem
            simp only [Nat.zero_add] at hmem
            exact hmin ⟨lt_trans hk hjs.1, hmem⟩)
      rw [AbstractTask.wait, hfirst] at hd
      exact waitFinish_ne_timeout _ _ _ hd
    · intro hall
      rw [AbstractTask.wait]
      exact waitLoop_timeout end_states error_states f (numPolls timeout frequency) 0 d0
        (fun k hk => by
          simp only [Nat.zero_add]
          exact hall k ((hconv k).mpr hk))
  · intro j hjle hend hbefore
    have hfirst := waitLoop_first_end end_states error_states f j
        (numPolls timeout frequency) 0 d0 ((hconv j).mp hjle)
        (by simpa using hend)
        (fun k hk => by simpa using hbefore k hk)
    simp only [Nat.zero_add] at hfirst
    rw [AbstractTask.wait, hfirst, waitFinish]
    constructor
    · intro herr
      rw [if_pos herr]
    · intro herr
      rw [if_neg herr]

theorem c4_wait_outcomes_witness :
    (0 : ℚ) < 1 ∧ (0 : ℚ) ≤ 2
    ∧ AbstractTask.wait TaskDetails.end_states TaskDetails.error_states
        (fun n => ReloadOutcome.ok
          (if n = 0 then (⟨"running", Option.none⟩ : TaskData) else ⟨"finished", Option.none⟩))
        2 1 ⟨"waiting", Option.none⟩
      = WaitResult.ok ⟨"finished", Option.none⟩ :=
  ⟨by norm_num, by norm_num,
    ((c4_wait_outcomes TaskDetails.end_states TaskDetails.error_states
        (fun n => if n = 0 then (⟨"running", Option.none⟩ : TaskData) else ⟨"finished", Option.none⟩)
        2 1 ⟨"waiting", Option.none⟩ (by norm_num) (by norm_num)).2 1 (by norm_num)
        (by decide)
        (fun k hk => by
          have hk0 : k = 0 := by omega
          subst hk0
          decide)).2 (by decide)⟩

/-- C4 counterexample: entry state running, and the first reload raises the
job-gone AssertionError; wait returns normally although the final state is
not a non-error end state, refuting the claimed exact characterization of the
normal return. -/
theorem c4_wait_gone_cx :
    AbstractTask.wait TaskDetails.end_states TaskDetails.error_states
        (fun _ => ReloadOutcome.raise ExcClass.assertionError) 1 1 ⟨"running", Option.none⟩
      = WaitResult.ok ⟨"running", Option.none⟩
    ∧ "running" ∉ TaskDetails.end_states := by
  constructor
  · decide
  · decide

/-- C10: an AssertionError of any class raised by reload at a poll inside the
deadline - including TaskFailure and TaskTimeoutError, which derive from
AssertionError through TaskError - makes wait leave the poll loop at that
poll without raising TaskTimeoutError; the outcome is then decided by
waitFinish, between a normal return and TaskFailure, from the stale data of
the last successful reload, or from the entry data when no reload
succeeded. -/
theorem c10_wait_assertion_escape (end_states error_states : List String)
    (f : Nat → TaskData) (e : ExcClass) (j : Nat) (timeout frequency : ℚ) (d0 : TaskData)
    (hf : 0 < frequency) (ht : 0 ≤ timeout)
    (hj : (j : ℚ) * frequency ≤ timeout)
    (he : isSubclass e ExcClass.assertionError = true)
    (hbefore : ∀ k, k < j → (f k).state ∉ end_states) :
    (AbstractTask.wait end_states error_states
        (fun n => if n = j then ReloadOutcome.raise e else ReloadOutcome.ok (f n))
        timeout frequency d0
      = waitFinish error_states (if j = 0 then d0 else f (j - 1)))
    ∧ (∀ d, AbstractTask.wait end_states error_states
        (fun n => if n = j then ReloadOutcome.raise e else ReloadOutcome.ok (f n))
        timeout frequency d0 ≠ WaitResult.taskTimeout d)
    ∧ isSubclass ExcClass.taskFailure ExcClass.assertionError = true
    ∧ isSubclass ExcClass.taskTimeoutError ExcClass.assertionError = true := by
  have hjN : j < numPolls timeout frequency :=
    (numPolls_spec timeout frequency hf ht j).mp hj
  have hmain := waitLoop_assertion_break end_states error_states
      (fun n => if n = j then ReloadOutcome.raise e else ReloadOutcome.ok (f n)) f e j
      (numPolls timeout frequency) 0 d0 hjN
      (fun k hk => by
        simp only [Nat.zero_add]
        exact ⟨by rw [if_neg (by omega : ¬k = j)], hbefore k hk⟩)
      (by simp)
      he
  simp only [Nat.zero_add] at hmain
  rw [AbstractTask.wait]
  refine ⟨hmain, ?_, rfl, rfl⟩
  intro d
  rw [hmain]
  exact waitFinish_ne_timeout _ _ _

theorem c10_wait_assertion_escape_witness :
    (0 : ℚ) < 1 ∧ (0 : ℚ) ≤ 2
    ∧ isSubclass ExcClass.taskFailure ExcClass.assertionError = true
    ∧ AbstractTask.wait TaskDetails.end_states TaskDetails.error_states
        (fun n => if n = 1 then ReloadOutcome.raise ExcClass.taskFailure
                  else ReloadOutcome.ok ⟨"running", Option.none⟩)
        2 1 ⟨"waiting", Option.none⟩
      = waitFinish TaskDetails.error_states ⟨"running", Option.none⟩ :=
  ⟨by norm_num, by norm_num, rfl,
    (c10_wait_assertion_escape TaskDetails.end_states TaskDetails.error_states
        (fun _ => ⟨"running", Option.none⟩) ExcClass.taskFailure 1 2 1
        ⟨"waiting", Option.none⟩ (by norm_num) (by norm_num) (by norm_num) rfl
        (fun k hk => by
          show "running" ∉ TaskDetails.end_states
          decide)).1⟩

theorem flatRun_append (xs ys : List (String × Option ExcClass)) :
    flatRun (xs ++ ys) = (flatRun xs).seq (flatRun ys) := by
  induction xs with
  | nil =>
    cases h : flatRun ys <;> simp [TreeResult.seq, flatRun, h]
  | cons x t ih =>
    obtain ⟨i, exc⟩ := x
    cases exc with
    | some e => rfl
    | none =>
      simp only [List.cons_append, flatRun, List.append_eq]
      rw [ih]
      cases h1 : flatRun t <;> cases h2 : flatRun ys <;> simp [TreeResult.seq, h1, h2]

mutual

theorem waitNode_eq_flat (n : JobNode) : waitNode n = flatRun (dfsNode n) := by
  match n with
  | .mk i exc spawned =>
    cases exc with
    | some e => rfl
    | none =>
      cases spawned with
      | none => rfl
      | some cs =>
        have hrec := waitNodes_eq_flat cs
        simp only [waitNode, dfsNode, flatRun, hrec]

theorem waitNodes_eq_flat (ns : List JobNode) : waitNodes ns = flatRun (dfsNodes ns) := by
  match ns with
  | [] => rfl
  | n :: rest =>
    have h1 := waitNode_eq_flat n
    have h2 := waitNodes_eq_flat rest
    simp only [waitNodes, dfsNodes, flatRun_append, h1, h2]
    cases flatRun (dfsNode n) <;> cases flatRun (dfsNodes rest) <;> simp [TreeResult.seq]

end

/-- C5: wait_for_report on a call report processes the spawned references
depth-first and left-to-right in listed order - waiting on each fetched task,
re-fetching it, and recursing into the spawned list of the fresh
representation when the key is present - and equals the declarative flatRun
description, which walks the depth-first preorder and aborts at the first
wait failure, so that no reference after the first failure is waited on. -/
theorem c5_wait_for_report_dfs (spawned : List JobNode) :
    wait_for_report spawned = flatRun (dfsNodes spawned) :=
  waitNodes_eq_flat spawned
